import Mathlib

/-!
Verification of the message/event conversion core of the
claude-agent-ai-provider adapter: prompt flattening, system-prompt
extraction, response conversion, the non-streaming aggregator, the
streaming adapter, usage accounting, finish-reason mapping, error
classification, and the structured-output post-processing hook.

The definitions are a shallow embedding of `src/converters.ts`,
`src/language-model.ts` and `src/errors.ts`; imperative loops become
folds, the asynchronous event sequence becomes a list consumed in
order, and JavaScript optional values become `Option`.
-/

namespace ClaudeAgentProvider

/-- A JSON value, modelling the plain JavaScript structures that flow
through tool-invocation inputs and request bodies. -/
inductive JsonValue where
  | null : JsonValue
  | bool (b : Bool) : JsonValue
  | num (n : Int) : JsonValue
  | str (s : String) : JsonValue
  | arr (elems : List JsonValue) : JsonValue
  | obj (fields : List (String × JsonValue)) : JsonValue

/-- Escaping of one character inside a JSON string literal, as
JSON.stringify performs it for the characters that matter here. -/
def jsonEscapeChar (c : Char) : String :=
  if c = '"' then "\\\""
  else if c = '\\' then "\\\\"
  else if c = '\n' then "\\n"
  else String.singleton c

/-- Escaping of a whole string for inclusion in JSON output. -/
def jsonEscape (s : String) : String :=
  String.join (s.toList.map jsonEscapeChar)

mutual

/-- Embedding of JSON.stringify on the JsonValue model (compact form,
no added whitespace, as JavaScript produces with one argument). -/
def jsonStringify : JsonValue → String
  | .null => "null"
  | .bool b => cond b "true" "false"
  | .num n => toString n
  | .str s => "\"" ++ jsonEscape s ++ "\""
  | .arr elems => "[" ++ jsonStringifyArray elems ++ "]"
  | .obj fields => "\x7b" ++ jsonStringifyFields fields ++ "\x7d"

/-- Comma-separated serialization of a JSON array's elements. -/
def jsonStringifyArray : List JsonValue → String
  | [] => ""
  | [v] => jsonStringify v
  | v :: rest => jsonStringify v ++ "," ++ jsonStringifyArray rest

/-- Comma-separated serialization of a JSON object's fields. -/
def jsonStringifyFields : List (String × JsonValue) → String
  | [] => ""
  | [f] => "\"" ++ jsonEscape f.1 ++ "\":" ++ jsonStringify f.2
  | f :: rest =>
      "\"" ++ jsonEscape f.1 ++ "\":" ++ jsonStringify f.2 ++ "," ++
        jsonStringifyFields rest

end

/-- One content part of a user/assistant prompt message, as the AI SDK
hands it to the converter: a type tag and an optional text payload
(matching the TypeScript shape used by extractTextFromContent). -/
structure ContentPart where
  type : String
  text : Option String
deriving Repr, DecidableEq

/-- One message of a LanguageModelV2Prompt: system messages carry a
plain string, user and assistant messages carry content-part lists. -/
inductive PromptMessage where
  | system (content : String) : PromptMessage
  | user (content : List ContentPart) : PromptMessage
  | assistant (content : List ContentPart) : PromptMessage
deriving Repr, DecidableEq

/-- Embedding of extractTextFromContent (converters.ts): collect the
text of every part whose type is the string text and whose text field
is present and non-empty (JavaScript truthiness of part.text), then
join the collected parts with a single space. The loop with push
becomes a left fold over the accumulator list. -/
def extractTextFromContent (content : List ContentPart) : String :=
  let textParts := content.foldl
    (fun textParts part =>
      if part.type = "text" then
        match part.text with
        | some t => if t ≠ "" then textParts ++ [t] else textParts
        | none => textParts
      else textParts)
    ([] : List String)
  String.intercalate " " textParts

/-- Embedding of convertPromptToAgentSDKFormat (converters.ts): walk
the messages in order, skip system messages, render each user or
assistant message as its role tag followed by the extracted text,
keep only messages whose extracted text is non-empty (JavaScript
truthiness of contentText), and join the rendered turns with a blank
line. -/
def convertPromptToAgentSDKFormat (prompt : List PromptMessage) : String :=
  let parts := prompt.foldl
    (fun parts message =>
      match message with
      | .system _ => parts
      | .user content =>
          let contentText := extractTextFromContent content
          if contentText ≠ "" then parts ++ ["User: " ++ contentText] else parts
      | .assistant content =>
          let contentText := extractTextFromContent content
          if contentText ≠ "" then parts ++ ["Assistant: " ++ contentText]
          else parts)
    ([] : List String)
  String.intercalate "\n\n" parts

/-- Embedding of extractSystemPrompt (converters.ts): return the
content of the first system message, or none when no system message
exists. -/
def extractSystemPrompt : List PromptMessage → Option String
  | [] => none
  | .system content :: _ => some content
  | .user _ :: rest => extractSystemPrompt rest
  | .assistant _ :: rest => extractSystemPrompt rest

/-- One content block inside an Agent SDK assistant message: a text
block, a tool-invocation block, or any other block type (thinking and
the like), which both conversion paths ignore. -/
inductive ContentBlock where
  | text (text : String) : ContentBlock
  | tool_use (id : String) (name : String) (input : JsonValue) : ContentBlock
  | other : ContentBlock

/-- The usage sub-structure of an Agent SDK result message; every
count is optional because the converter guards each read with a
nullish-coalescing default. -/
structure SDKUsage where
  input_tokens : Option Nat
  output_tokens : Option Nat
  cache_creation_input_tokens : Option Nat
  cache_read_input_tokens : Option Nat
deriving Repr, DecidableEq

/-- The payload of an Agent SDK result message: an optional usage
sub-structure, a subtype string, and the error flag. -/
structure ResultEvent where
  usage : Option SDKUsage
  subtype : String
  is_error : Bool
deriving Repr, DecidableEq

/-- One Agent SDK message as the two conversion paths see it: an
assistant turn carrying content blocks and an optional stop reason, a
result message, or any other message type, which both paths skip. -/
inductive SDKMessage where
  | assistant (content : List ContentBlock) (stop_reason : Option String) : SDKMessage
  | result (r : ResultEvent) : SDKMessage
  | other : SDKMessage

/-- One LanguageModelV2Content item produced for the non-streaming
caller: a text item, or a tool-call item keeping the invocation input
as a raw structure. -/
inductive LMContent where
  | text (text : String) : LMContent
  | toolCall (toolCallId : String) (toolName : String) (input : JsonValue) : LMContent

/-- The LanguageModelV2Usage record: the cached-input count is
optional because convertResultToUsage copies it without a default. -/
structure LMUsage where
  inputTokens : Nat
  outputTokens : Nat
  totalTokens : Nat
  cachedInputTokens : Option Nat
deriving Repr, DecidableEq

/-- The LanguageModelV2FinishReason enumeration. -/
inductive FinishReason where
  | stop | length | contentFilter | toolCalls | error | other | unknown
deriving Repr, DecidableEq

/-- Embedding of convertAssistantMessageToContent (converters.ts):
text blocks become text items with the same text, tool-use blocks
become tool-call items carrying id, name and the raw input structure,
and every other block type is dropped. The loop with push becomes a
left fold over the accumulator list. -/
def convertAssistantMessageToContent (content : List ContentBlock) : List LMContent :=
  content.foldl
    (fun acc block =>
      match block with
      | .text t => acc ++ [LMContent.text t]
      | .tool_use id name input => acc ++ [LMContent.toolCall id name input]
      | .other => acc)
    ([] : List LMContent)

/-- Embedding of convertResultToUsage (converters.ts): each count
defaults to zero when absent, the total is the sum of input, output,
cache-creation and cache-read counts, and the cached-input count is
copied through without a default. -/
def convertResultToUsage (result : ResultEvent) : LMUsage :=
  let usage := result.usage
  { inputTokens := ((usage.map SDKUsage.input_tokens).join).getD 0
    outputTokens := ((usage.map SDKUsage.output_tokens).join).getD 0
    totalTokens :=
      ((usage.map SDKUsage.input_tokens).join).getD 0 +
      ((usage.map SDKUsage.output_tokens).join).getD 0 +
      ((usage.map SDKUsage.cache_creation_input_tokens).join).getD 0 +
      ((usage.map SDKUsage.cache_read_input_tokens).join).getD 0
    cachedInputTokens := (usage.map SDKUsage.cache_read_input_tokens).join }

/-- Embedding of convertStopReason (converters.ts): the switch on the
stop-reason string, with unknown for every unmapped or absent value.
The sequential case comparison of the switch becomes an if chain. -/
def convertStopReason (stopReason : Option String) : FinishReason :=
  match stopReason with
  | some s =>
      if s = "end_turn" then .stop
      else if s = "max_tokens" then .length
      else if s = "tool_use" then .toolCalls
      else if s = "stop_sequence" then .stop
      else .unknown
  | none => .unknown

/-- The mutable loop state of collectAssistantMessages: the content
accumulator, the captured final result, and the last stop reason. -/
structure CollectState where
  allContent : List LMContent
  finalResult : Option ResultEvent
  lastStopReason : Option String

/-- One iteration of the collectAssistantMessages loop: assistant
messages append their converted content and overwrite the last stop
reason, result messages overwrite the captured final result, and any
other message is skipped. -/
def collectStep (s : CollectState) (message : SDKMessage) : CollectState :=
  match message with
  | .assistant content stop_reason =>
      { s with
        allContent := s.allContent ++ convertAssistantMessageToContent content
        lastStopReason := stop_reason }
  | .result r => { s with finalResult := some r }
  | .other => s

/-- The aggregate returned by collectAssistantMessages. -/
structure CollectResult where
  content : List LMContent
  finishReason : FinishReason
  usage : LMUsage
  result : Option ResultEvent

/-- Embedding of collectAssistantMessages (converters.ts): fold the
message sequence through collectStep from the empty state, then build
the aggregate, using a zero usage record when no result was seen. -/
def collectAssistantMessages (messages : List SDKMessage) : CollectResult :=
  let s := messages.foldl collectStep ⟨[], none, none⟩
  let usage : LMUsage :=
    match s.finalResult with
    | some r => convertResultToUsage r
    | none => { inputTokens := 0, outputTokens := 0, totalTokens := 0,
                cachedInputTokens := none }
  { content := s.allContent
    finishReason := convertStopReason s.lastStopReason
    usage := usage
    result := s.finalResult }

/-- One LanguageModelV2StreamPart emitted by the streaming adapter: a
text delta with a generated identifier, a tool call whose input has
been serialized to a JSON string, or the final finish event. -/
inductive StreamPart where
  | textDelta (id : String) (delta : String) : StreamPart
  | toolCall (toolCallId : String) (toolName : String) (input : String) : StreamPart
  | finish (finishReason : FinishReason) (usage : LMUsage) : StreamPart
deriving Repr, DecidableEq

/-- The finish-reason computation of the streaming result branch in
createStreamFromAgentSDK (language-model.ts): stop by default, stop
when the subtype is success, error when the error flag is set. -/
def streamFinishReason (r : ResultEvent) : FinishReason :=
  if r.subtype = "success" then .stop
  else if r.is_error then .error
  else .stop

/-- The inner block loop of createStreamFromAgentSDK: the pair state
carries the textPartId counter and the events enqueued so far; each
text block enqueues one text delta whose identifier embeds the
post-incremented counter, each tool-use block enqueues one tool call
with JSON-stringified input, and other blocks are skipped. -/
def streamBlocksLoop (state : Nat × List StreamPart) (content : List ContentBlock) :
    Nat × List StreamPart :=
  content.foldl
    (fun p block =>
      match block with
      | .text t =>
          (p.1 + 1, p.2 ++ [StreamPart.textDelta ("text-" ++ toString p.1) t])
      | .tool_use id name input =>
          (p.1, p.2 ++ [StreamPart.toolCall id name (jsonStringify input)])
      | .other => p)
    state

/-- The outer message loop of createStreamFromAgentSDK: assistant
messages run the block loop, result messages enqueue one finish event
carrying the success/error finish reason and the converted usage, and
other messages are skipped; the loop only ends when the message
sequence is exhausted. -/
def streamLoop (textPartId : Nat) (enqueued : List StreamPart) :
    List SDKMessage → Nat × List StreamPart
  | [] => (textPartId, enqueued)
  | message :: rest =>
      match message with
      | .assistant content _ =>
          let p := streamBlocksLoop (textPartId, enqueued) content
          streamLoop p.1 p.2 rest
      | .result r =>
          streamLoop textPartId
            (enqueued ++ [StreamPart.finish (streamFinishReason r) (convertResultToUsage r)])
            rest
      | .other => streamLoop textPartId enqueued rest

/-- Embedding of createStreamFromAgentSDK (language-model.ts): the
full sequence of stream parts enqueued before the stream closes,
starting from counter zero and an empty queue. -/
def createStreamFromAgentSDK (messages : List SDKMessage) : List StreamPart :=
  (streamLoop 0 [] messages).2

/-- A caught failure as the error classifier sees it: either a
JavaScript Error instance carrying a message, or any other thrown
value (modelled by its JSON shape). -/
inductive CaughtError where
  | error (message : String) : CaughtError
  | nonError (value : JsonValue) : CaughtError

/-- One typed error produced by the classifier, with the original
failure kept as the cause. -/
inductive AISDKError where
  | authentication (message : String) (cause : CaughtError) : AISDKError
  | modelNotFound (message : String) (cause : CaughtError) : AISDKError
  | rateLimit (message : String) (retryAfter : Option Nat) (cause : CaughtError) : AISDKError
  | invalidRequest (message : String) (cause : CaughtError) : AISDKError
  | apiCall (message : String) (url : String) (requestBodyValues : JsonValue)
      (statusCode : Nat) (cause : CaughtError) : AISDKError
  | provider (message : String) (cause : CaughtError) : AISDKError

/-- Embedding of convertToAISDKError (errors.ts): dispatch on the
status code for Error inputs — 401 authentication, 404 model-not-found
(whose constructor interpolates the message into its own template),
429 rate-limit without a retry-after hint, 400 invalid-request, 500
and above an API-call error carrying url and request-body context, and
anything else a generic provider error; a non-Error input becomes a
generic provider error with a fixed message. Every branch stores the
original failure as the cause. -/
def convertToAISDKError (err : CaughtError) (statusCode : Option Nat)
    (url : Option String) (requestBody : Option JsonValue) : AISDKError :=
  match err with
  | .error message =>
      if statusCode = some 401 then .authentication message err
      else if statusCode = some 404 then
        .modelNotFound ("Model '" ++ message ++ "' not found or not supported.") err
      else if statusCode = some 429 then .rateLimit message none err
      else if statusCode = some 400 then .invalidRequest message err
      else
        match statusCode with
        | some code =>
            if code ≠ 0 ∧ 500 ≤ code then
              .apiCall ("Server error: " ++ message) (url.getD "unknown")
                (requestBody.getD (.obj [])) code err
            else .provider message err
        | none => .provider message err
  | .nonError _ => .provider "Unknown error occurred" err

/-- Whether a character counts as surrounding whitespace for
trimming. -/
def isTrimWhitespace (c : Char) : Bool :=
  c = ' ' || c = '\n' || c = '\t' || c = '\r'

/-- Whitespace trimming of both ends of a character list. -/
def trimChars (l : List Char) : List Char :=
  ((l.dropWhile isTrimWhitespace).reverse.dropWhile isTrimWhitespace).reverse

/-- Modelled from the spec: stripMarkdownCodeBlocks, whose body is
absent from the provided sources (only its import and its use in the
non-streaming post-processing hook appear). Per the spec it removes
leading and trailing triple-backtick fences together with an optional
language tag on the opening fence, and the result is
whitespace-trimmed. -/
def stripMarkdownCodeBlocks (text : String) : String :=
  let fence := "```".toList
  let t := trimChars text.toList
  if t.take 3 = fence then
    let afterTag := ((t.drop 3).dropWhile (fun c => c ≠ '\n')).drop 1
    let body :=
      if afterTag.reverse.take 3 = fence then (afterTag.reverse.drop 3).reverse
      else afterTag
    String.mk (trimChars body)
  else String.mk t

/-- The JSON post-processing hook of doGenerate (language-model.ts):
map every text item's value through stripMarkdownCodeBlocks and leave
every other item unchanged. -/
def postProcessJsonContent (content : List LMContent) : List LMContent :=
  content.map
    (fun item =>
      match item with
      | .text t => LMContent.text (stripMarkdownCodeBlocks t)
      | other => other)

/-- The content produced by doGenerate (language-model.ts) from the
collected message sequence: the aggregated content, passed through the
fence-stripping hook exactly when the caller requested JSON response
format. -/
def doGenerateContent (responseFormatJson : Bool) (messages : List SDKMessage) :
    List LMContent :=
  let content := (collectAssistantMessages messages).content
  if responseFormatJson then postProcessJsonContent content else content

/-! Claim-side definitions: compositional restatements of the spec's
wording, to be compared with the embedded source functions. -/

/-- The text contributed by one prompt content part per the spec: the
value of a text part, nothing for a non-text or empty part. -/
def specTextOfPart (part : ContentPart) : Option String :=
  if part.type = "text" then
    match part.text with
    | some t => if t = "" then none else some t
    | none => none
  else none

/-- The spec's per-turn text: the turn's text parts joined with a
single space. -/
def specTurnText (content : List ContentPart) : String :=
  String.intercalate " " (content.filterMap specTextOfPart)

/-- The spec's rendering of one turn: skip system turns, tag user and
assistant turns with their role word, and drop turns that contribute
no text. -/
def specTurnString : PromptMessage → Option String
  | .system _ => none
  | .user content =>
      let t := specTurnText content
      if t = "" then none else some ("User: " ++ t)
  | .assistant content =>
      let t := specTurnText content
      if t = "" then none else some ("Assistant: " ++ t)

/-- The spec's flattened prompt: the rendered turns, in order, joined
with a blank line. -/
def specPromptText (prompt : List PromptMessage) : String :=
  String.intercalate "\n\n" (prompt.filterMap specTurnString)

/-- Whether a prompt message is a system message. -/
def isSystemMessage : PromptMessage → Bool
  | .system _ => true
  | _ => false

/-- Removal of every non-text content part from a prompt message,
used to state that non-text parts are ignored. -/
def dropNonTextParts : PromptMessage → PromptMessage
  | .system s => .system s
  | .user content => .user (content.filter (fun part => part.type = "text"))
  | .assistant content => .assistant (content.filter (fun part => part.type = "text"))

/-- The spec's conversion of one assistant content block for the
non-streaming path: text blocks become text items with the identical
text, tool-use blocks become tool-call items with id, name and the
raw input structure, and other blocks are dropped. -/
def specConvertBlock : ContentBlock → Option LMContent
  | .text t => some (LMContent.text t)
  | .tool_use id name input => some (LMContent.toolCall id name input)
  | .other => none

/-- The spec's aggregated content: the in-order concatenation, over
the assistant-turn events in arrival order, of their converted
blocks. -/
def specContent : List SDKMessage → List LMContent
  | [] => []
  | .assistant content _ :: rest => content.filterMap specConvertBlock ++ specContent rest
  | .result _ :: rest => specContent rest
  | .other :: rest => specContent rest

/-- The result payload of a message, when it is a result message. -/
def resultOf : SDKMessage → Option ResultEvent
  | .result r => some r
  | _ => none

/-- The spec's captured terminal result: the last result event of the
sequence, when one exists. -/
def specLastResult (messages : List SDKMessage) : Option ResultEvent :=
  (messages.filterMap resultOf).getLast?

/-- The stop-reason slot of a message, when it is an assistant turn
(the slot itself may be empty). -/
def assistantStopOf : SDKMessage → Option (Option String)
  | .assistant _ stop_reason => some stop_reason
  | _ => none

/-- The spec's last-known stop reason: the stop reason of the final
assistant-turn event, absent when no assistant turn occurred. -/
def specLastStopReason (messages : List SDKMessage) : Option String :=
  ((messages.filterMap assistantStopOf).getLast?).join

/-- The zero usage record returned when no result event occurred. -/
def zeroLMUsage : LMUsage :=
  { inputTokens := 0, outputTokens := 0, totalTokens := 0, cachedInputTokens := none }

/-- The number of text blocks in a block list. -/
def blockTextCount (content : List ContentBlock) : Nat :=
  (content.filterMap (fun block =>
    match block with
    | .text t => some t
    | _ => none)).length

/-- The total number of text blocks carried by the assistant turns of
a message sequence. -/
def textBlockCount : List SDKMessage → Nat
  | [] => 0
  | .assistant content _ :: rest => blockTextCount content + textBlockCount rest
  | _ :: rest => textBlockCount rest

/-- The stream parts produced by one assistant turn's blocks when the
global text-block counter starts at c: one text delta per text block
with the counter embedded in its identifier, one tool call per
tool-use block with JSON-string input, nothing for other blocks. -/
def streamBlockParts (c : Nat) : List ContentBlock → List StreamPart
  | [] => []
  | .text t :: rest =>
      StreamPart.textDelta ("text-" ++ toString c) t :: streamBlockParts (c + 1) rest
  | .tool_use id name input :: rest =>
      StreamPart.toolCall id name (jsonStringify input) :: streamBlockParts c rest
  | .other :: rest => streamBlockParts c rest

/-- The stream parts produced by a message sequence when the global
text-block counter starts at c, event by event in arrival order. -/
def streamParts (c : Nat) : List SDKMessage → List StreamPart
  | [] => []
  | .assistant content _ :: rest =>
      streamBlockParts c content ++ streamParts (c + blockTextCount content) rest
  | .result r :: rest =>
      StreamPart.finish (streamFinishReason r) (convertResultToUsage r) ::
        streamParts c rest
  | .other :: rest => streamParts c rest

/-- Erasure of generated delta identifiers, used to compare the
stream against the identifier-free spec description. -/
def eraseDeltaId : StreamPart → StreamPart
  | .textDelta _ delta => .textDelta "" delta
  | p => p

/-- The spec's output for one content block of an assistant turn,
identifiers erased: one text-delta per text block carrying the raw
text, one tool-call per tool-use block carrying id, name and the
JSON-serialized input, nothing for other blocks. -/
def specStreamBlockPart : ContentBlock → Option StreamPart
  | .text t => some (StreamPart.textDelta "" t)
  | .tool_use id name input => some (StreamPart.toolCall id name (jsonStringify input))
  | .other => none

/-- The spec's output for one Agent event, identifiers erased. -/
def specStreamEventParts : SDKMessage → List StreamPart
  | .assistant content _ => content.filterMap specStreamBlockPart
  | .result r => [StreamPart.finish (streamFinishReason r) (convertResultToUsage r)]
  | .other => []

/-- The spec's whole output stream, identifiers erased: each event's
outputs in arrival order, each block's output in block order. -/
def specStreamErased : List SDKMessage → List StreamPart
  | [] => []
  | message :: rest => specStreamEventParts message ++ specStreamErased rest

/-- The generated identifiers of the text-delta events of a stream,
in emission order. -/
def deltaIds (parts : List StreamPart) : List String :=
  parts.filterMap (fun p =>
    match p with
    | .textDelta id _ => some id
    | _ => none)

/-- The raw texts of the text-delta events of a stream, in emission
order. -/
def deltaTexts (parts : List StreamPart) : List String :=
  parts.filterMap (fun p =>
    match p with
    | .textDelta _ delta => some delta
    | _ => none)

/-- Whether a stream satisfies the claim that nothing is ever emitted
after a finish event. -/
def noOutputAfterFinishB : List StreamPart → Bool
  | [] => true
  | .finish _ _ :: rest => rest.isEmpty
  | _ :: rest => noOutputAfterFinishB rest

/-- The cause stored in a classified error. -/
def causeOf : AISDKError → CaughtError
  | .authentication _ cause => cause
  | .modelNotFound _ cause => cause
  | .rateLimit _ _ cause => cause
  | .invalidRequest _ cause => cause
  | .apiCall _ _ _ _ cause => cause
  | .provider _ cause => cause

/-! Helper lemmas. -/

/-- A loop that conditionally pushes one element per input equals a
filterMap. -/
theorem foldl_push_eq_filterMap {α β : Type} (body : List β → α → List β)
    (f : α → Option β) (h : ∀ acc x, body acc x = acc ++ (f x).toList) :
    ∀ (l : List α) (acc : List β), l.foldl body acc = acc ++ l.filterMap f := by
  intro l
  induction l with
  | nil => intro acc; simp
  | cons x xs ih =>
      intro acc
      rw [List.foldl_cons, h]
      cases hx : f x with
      | none => simp [hx, List.filterMap_cons, ih]
      | some b => simp [hx, List.filterMap_cons, ih]

/-- The embedded text extraction agrees with the spec's per-turn
text. -/
theorem extractTextFromContent_eq (content : List ContentPart) :
    extractTextFromContent content = specTurnText content := by
  unfold extractTextFromContent specTurnText
  rw [foldl_push_eq_filterMap _ specTextOfPart]
  · rfl
  · intro acc part
    unfold specTextOfPart
    cases hp : part.text with
    | none => by_cases ht : part.type = "text" <;> simp [hp, ht]
    | some t =>
        by_cases ht : part.type = "text" <;>
          by_cases he : t = "" <;> simp [hp, ht, he]

/-- The embedded prompt flattening agrees with the spec's flattened
prompt. -/
theorem convertPromptToAgentSDKFormat_eq (prompt : List PromptMessage) :
    convertPromptToAgentSDKFormat prompt = specPromptText prompt := by
  unfold convertPromptToAgentSDKFormat specPromptText
  rw [foldl_push_eq_filterMap _ specTurnString]
  · rfl
  · intro acc message
    cases message with
    | system s => simp [specTurnString]
    | user content =>
        simp only [specTurnString, extractTextFromContent_eq]
        by_cases he : specTurnText content = "" <;> simp [he]
    | assistant content =>
        simp only [specTurnString, extractTextFromContent_eq]
        by_cases he : specTurnText content = "" <;> simp [he]

/-- The embedded assistant-message conversion agrees with the spec's
per-block conversion. -/
theorem convertAssistantMessageToContent_eq (content : List ContentBlock) :
    convertAssistantMessageToContent content = content.filterMap specConvertBlock := by
  unfold convertAssistantMessageToContent
  rw [foldl_push_eq_filterMap _ specConvertBlock]
  · rfl
  · intro acc block
    cases block <;> simp [specConvertBlock]

/-- Peeling the head off a getLast?-with-default. -/
theorem getLast?_cons_getD {α : Type} (xs : List α) :
    ∀ (x d : α), (((x :: xs).getLast?).getD d) = ((xs.getLast?).getD x) := by
  induction xs with
  | nil => intro x d; simp
  | cons y ys ih =>
      intro x d
      rw [List.getLast?_cons_cons]
      rw [ih y d, ih y x]

/-- Peeling the head off a getLast?-with-fallback-option. -/
theorem getLast?_cons_or {α : Type} (xs : List α) :
    ∀ (x : α) (o : Option α), (((x :: xs).getLast?).or o) = ((xs.getLast?).or (some x)) := by
  induction xs with
  | nil => intro x o; simp
  | cons y ys ih =>
      intro x o
      rw [List.getLast?_cons_cons]
      rw [ih y o, ih y (some x)]

/-- Closed form of the collectAssistantMessages fold from an
arbitrary starting state. -/
theorem collect_foldl_eq (messages : List SDKMessage) :
    ∀ s : CollectState,
      messages.foldl collectStep s =
        ⟨s.allContent ++ specContent messages,
         ((messages.filterMap resultOf).getLast?).or s.finalResult,
         ((messages.filterMap assistantStopOf).getLast?).getD s.lastStopReason⟩ := by
  induction messages with
  | nil => intro s; simp [specContent]
  | cons message rest ih =>
      intro s
      cases message with
      | assistant content stop_reason =>
          rw [List.foldl_cons]
          rw [ih]
          simp [collectStep, specContent, resultOf, assistantStopOf,
            convertAssistantMessageToContent_eq, List.filterMap_cons,
            getLast?_cons_getD]
      | result r =>
          rw [List.foldl_cons]
          rw [ih]
          simp [collectStep, specContent, resultOf, assistantStopOf,
            List.filterMap_cons, getLast?_cons_or]
      | other =>
          rw [List.foldl_cons]
          rw [ih]
          simp [collectStep, specContent, resultOf, assistantStopOf,
            List.filterMap_cons]

/-- The fields of the aggregate, in claim-side form. -/
theorem collectAssistantMessages_eq (messages : List SDKMessage) :
    collectAssistantMessages messages =
      { content := specContent messages
        finishReason := convertStopReason (specLastStopReason messages)
        usage :=
          match specLastResult messages with
          | some r => convertResultToUsage r
          | none => zeroLMUsage
        result := specLastResult messages } := by
  unfold collectAssistantMessages specLastResult specLastStopReason zeroLMUsage
  rw [collect_foldl_eq]
  cases hl : (messages.filterMap assistantStopOf).getLast? with
  | none => cases hr : (messages.filterMap resultOf).getLast? <;> simp [hl, hr]
  | some sr => cases hr : (messages.filterMap resultOf).getLast? <;> simp [hl, hr]

/-- Closed form of the inner block loop of the streaming adapter. -/
theorem streamBlocksLoop_eq (content : List ContentBlock) :
    ∀ (c : Nat) (em : List StreamPart),
      streamBlocksLoop (c, em) content =
        (c + blockTextCount content, em ++ streamBlockParts c content) := by
  induction content with
  | nil => intro c em; simp [streamBlocksLoop, blockTextCount, streamBlockParts]
  | cons block rest ih =>
      intro c em
      cases block with
      | text t =>
          show streamBlocksLoop (c + 1, em ++ [StreamPart.textDelta ("text-" ++ toString c) t]) rest = _
          rw [ih]
          simp [blockTextCount, streamBlockParts, List.filterMap_cons]
          omega
      | tool_use id name input =>
          show streamBlocksLoop (c, em ++ [StreamPart.toolCall id name (jsonStringify input)]) rest = _
          rw [ih]
          simp [blockTextCount, streamBlockParts, List.filterMap_cons]
      | other =>
          show streamBlocksLoop (c, em) rest = _
          rw [ih]
          simp [blockTextCount, streamBlockParts, List.filterMap_cons]

/-- Closed form of the outer message loop of the streaming adapter. -/
theorem streamLoop_eq (messages : List SDKMessage) :
    ∀ (c : Nat) (em : List StreamPart),
      streamLoop c em messages =
        (c + textBlockCount messages, em ++ streamParts c messages) := by
  induction messages with
  | nil => intro c em; simp [streamLoop, textBlockCount, streamParts]
  | cons message rest ih =>
      intro c em
      cases message with
      | assistant content stop_reason =>
          show streamLoop (streamBlocksLoop (c, em) content).1
              (streamBlocksLoop (c, em) content).2 rest = _
          rw [streamBlocksLoop_eq]
          rw [ih]
          simp [textBlockCount, streamParts]
          omega
      | result r =>
          show streamLoop c
              (em ++ [StreamPart.finish (streamFinishReason r) (convertResultToUsage r)]) rest = _
          rw [ih]
          simp [textBlockCount, streamParts]
      | other =>
          show streamLoop c em rest = _
          rw [ih]
          simp [textBlockCount, streamParts]

/-- The stream of the whole adapter, in claim-side threaded form. -/
theorem createStreamFromAgentSDK_eq (messages : List SDKMessage) :
    createStreamFromAgentSDK messages = streamParts 0 messages := by
  unfold createStreamFromAgentSDK
  rw [streamLoop_eq]
  rfl

/-- Identifier erasure of a block's stream parts gives the spec's
identifier-free per-block outputs. -/
theorem streamBlockParts_map_erase (content : List ContentBlock) :
    ∀ c : Nat,
      (streamBlockParts c content).map eraseDeltaId =
        content.filterMap specStreamBlockPart := by
  induction content with
  | nil => intro c; simp [streamBlockParts]
  | cons block rest ih =>
      intro c
      cases block <;>
        simp [streamBlockParts, specStreamBlockPart, eraseDeltaId,
          List.filterMap_cons, ih]

/-- Identifier erasure of the full stream gives the spec's
identifier-free description. -/
theorem streamParts_map_erase (messages : List SDKMessage) :
    ∀ c : Nat,
      (streamParts c messages).map eraseDeltaId = specStreamErased messages := by
  induction messages with
  | nil => intro c; simp [streamParts, specStreamErased]
  | cons message rest ih =>
      intro c
      cases message <;>
        simp [streamParts, specStreamErased, specStreamEventParts, eraseDeltaId,
          streamBlockParts_map_erase, ih]

/-- Delta identifiers distribute over stream concatenation. -/
theorem deltaIds_append (a b : List StreamPart) :
    deltaIds (a ++ b) = deltaIds a ++ deltaIds b := by
  simp [deltaIds]

/-- Delta identifiers of a stream headed by a text delta. -/
theorem deltaIds_cons_textDelta (id t : String) (l : List StreamPart) :
    deltaIds (StreamPart.textDelta id t :: l) = id :: deltaIds l := by
  simp [deltaIds]

/-- Delta identifiers of a stream headed by a tool call. -/
theorem deltaIds_cons_toolCall (a b c : String) (l : List StreamPart) :
    deltaIds (StreamPart.toolCall a b c :: l) = deltaIds l := by
  simp [deltaIds]

/-- Delta identifiers of a stream headed by a finish event. -/
theorem deltaIds_cons_finish (fr : FinishReason) (u : LMUsage) (l : List StreamPart) :
    deltaIds (StreamPart.finish fr u :: l) = deltaIds l := by
  simp [deltaIds]

/-- The delta identifiers generated for a block list count up from
the starting counter. -/
theorem deltaIds_streamBlockParts (content : List ContentBlock) :
    ∀ c : Nat,
      deltaIds (streamBlockParts c content) =
        (List.range' c (blockTextCount content)).map
          (fun i => "text-" ++ toString i) := by
  induction content with
  | nil => intro c; simp [streamBlockParts, deltaIds, blockTextCount]
  | cons block rest ih =>
      intro c
      cases block with
      | text t =>
          have hcount : blockTextCount (ContentBlock.text t :: rest) =
              blockTextCount rest + 1 := by
            simp [blockTextCount, List.filterMap_cons]
          rw [hcount, List.range'_succ]
          simp only [streamBlockParts, deltaIds_cons_textDelta, List.map_cons]
          rw [ih]
      | tool_use id name input =>
          have hcount : blockTextCount (ContentBlock.tool_use id name input :: rest) =
              blockTextCount rest := by
            simp [blockTextCount, List.filterMap_cons]
          rw [hcount]
          simp only [streamBlockParts, deltaIds_cons_toolCall]
          rw [ih]
      | other =>
          have hcount : blockTextCount (ContentBlock.other :: rest) =
              blockTextCount rest := by
            simp [blockTextCount, List.filterMap_cons]
          rw [hcount]
          simp only [streamBlockParts]
          rw [ih]

/-- The delta identifiers generated for a message sequence count up
from the starting counter. -/
theorem deltaIds_streamParts (messages : List SDKMessage) :
    ∀ c : Nat,
      deltaIds (streamParts c messages) =
        (List.range' c (textBlockCount messages)).map
          (fun i => "text-" ++ toString i) := by
  induction messages with
  | nil => intro c; simp [streamParts, deltaIds, textBlockCount]
  | cons message rest ih =>
      intro c
      cases message with
      | assistant content stop_reason =>
          simp only [streamParts, textBlockCount]
          rw [deltaIds_append, deltaIds_streamBlockParts, ih]
          rw [Nat.add_comm (blockTextCount content) (textBlockCount rest)]
          rw [← List.range'_append_1, List.map_append]
      | result r =>
          simp only [streamParts, textBlockCount, deltaIds_cons_finish]
          rw [ih]
      | other =>
          simp only [streamParts, textBlockCount]
          rw [ih]

/-- The streamed output of a concatenated event sequence splits at
the junction, the counter advancing by the first part's text-block
count. -/
theorem streamParts_append (m1 : List SDKMessage) :
    ∀ (m2 : List SDKMessage) (c : Nat),
      streamParts c (m1 ++ m2) =
        streamParts c m1 ++ streamParts (c + textBlockCount m1) m2 := by
  induction m1 with
  | nil => intro m2 c; simp [streamParts, textBlockCount]
  | cons message rest ih =>
      intro m2 c
      cases message with
      | assistant content stop_reason =>
          show streamBlockParts c content ++
              streamParts (c + blockTextCount content) (rest ++ m2) = _
          rw [ih]
          simp [streamParts, textBlockCount, Nat.add_assoc]
      | result r =>
          show StreamPart.finish (streamFinishReason r) (convertResultToUsage r) ::
              streamParts c (rest ++ m2) = _
          rw [ih]
          simp [streamParts, textBlockCount]
      | other =>
          show streamParts c (rest ++ m2) = _
          rw [ih]
          simp [streamParts, textBlockCount]

/-- The raw text-block values carried by the assistant turns of a
message sequence, in arrival order. -/
def rawTextBlocks : List SDKMessage → List String
  | [] => []
  | .assistant content _ :: rest =>
      content.filterMap (fun block =>
        match block with
        | .text t => some t
        | _ => none) ++ rawTextBlocks rest
  | .result _ :: rest => rawTextBlocks rest
  | .other :: rest => rawTextBlocks rest

/-- Delta texts distribute over stream concatenation. -/
theorem deltaTexts_append (a b : List StreamPart) :
    deltaTexts (a ++ b) = deltaTexts a ++ deltaTexts b := by
  simp [deltaTexts]

/-- Delta texts of a stream headed by a text delta. -/
theorem deltaTexts_cons_textDelta (id t : String) (l : List StreamPart) :
    deltaTexts (StreamPart.textDelta id t :: l) = t :: deltaTexts l := by
  simp [deltaTexts]

/-- Delta texts of a stream headed by a tool call. -/
theorem deltaTexts_cons_toolCall (a b c : String) (l : List StreamPart) :
    deltaTexts (StreamPart.toolCall a b c :: l) = deltaTexts l := by
  simp [deltaTexts]

/-- Delta texts of a stream headed by a finish event. -/
theorem deltaTexts_cons_finish (fr : FinishReason) (u : LMUsage) (l : List StreamPart) :
    deltaTexts (StreamPart.finish fr u :: l) = deltaTexts l := by
  simp [deltaTexts]

/-- The delta texts of a block list's stream parts are the raw text
values of its text blocks. -/
theorem deltaTexts_streamBlockParts (content : List ContentBlock) :
    ∀ c : Nat,
      deltaTexts (streamBlockParts c content) =
        content.filterMap (fun block =>
          match block with
          | .text t => some t
          | _ => none) := by
  induction content with
  | nil => intro c; simp [streamBlockParts, deltaTexts]
  | cons block rest ih =>
      intro c
      cases block with
      | text t =>
          simp only [streamBlockParts, deltaTexts_cons_textDelta,
            List.filterMap_cons]
          rw [ih]
      | tool_use id name input =>
          simp only [streamBlockParts, deltaTexts_cons_toolCall,
            List.filterMap_cons]
          rw [ih]
      | other =>
          simp only [streamBlockParts, List.filterMap_cons]
          rw [ih]

/-- The delta texts of the whole stream are the raw text-block values
of the message sequence. -/
theorem deltaTexts_streamParts (messages : List SDKMessage) :
    ∀ c : Nat, deltaTexts (streamParts c messages) = rawTextBlocks messages := by
  induction messages with
  | nil => intro c; simp [streamParts, deltaTexts, rawTextBlocks]
  | cons message rest ih =>
      intro c
      cases message with
      | assistant content stop_reason =>
          simp only [streamParts, rawTextBlocks, deltaTexts_append,
            deltaTexts_streamBlockParts]
          rw [ih]
      | result r =>
          simp only [streamParts, rawTextBlocks, deltaTexts_cons_finish]
          exact ih c
      | other => simp only [streamParts, rawTextBlocks]; exact ih c

/-- No finish event occurs among the parts produced for an assistant
turn's blocks. -/
theorem finish_not_mem_streamBlockParts (content : List ContentBlock) :
    ∀ (c : Nat) (fr : FinishReason) (u : LMUsage),
      StreamPart.finish fr u ∉ streamBlockParts c content := by
  induction content with
  | nil => intro c fr u h; simp [streamBlockParts] at h
  | cons block rest ih =>
      intro c fr u h
      cases block <;> simp [streamBlockParts] at h <;> exact ih _ fr u h

/-- Every finish event of the stream carries the success/error finish
reason of some result event. -/
theorem finish_mem_streamParts (messages : List SDKMessage) :
    ∀ (c : Nat) (fr : FinishReason) (u : LMUsage),
      StreamPart.finish fr u ∈ streamParts c messages →
        ∃ r : ResultEvent, fr = streamFinishReason r := by
  induction messages with
  | nil => intro c fr u h; simp [streamParts] at h
  | cons message rest ih =>
      intro c fr u h
      cases message with
      | assistant content stop_reason =>
          simp only [streamParts, List.mem_append] at h
          cases h with
          | inl h => exact absurd h (finish_not_mem_streamBlockParts content c fr u)
          | inr h => exact ih _ fr u h
      | result r =>
          simp only [streamParts, List.mem_cons] at h
          cases h with
          | inl h =>
              injection h with h1 h2
              exact ⟨r, h1⟩
          | inr h => exact ih _ fr u h
      | other => exact ih _ fr u h

/-- The spec's rendered turn is unchanged by removing a message's
non-text content parts. -/
theorem specTurnText_filter_text (content : List ContentPart) :
    specTurnText (content.filter (fun part => part.type = "text")) =
      specTurnText content := by
  unfold specTurnText
  congr 1
  induction content with
  | nil => simp
  | cons part rest ih =>
      by_cases ht : part.type = "text" <;>
        simp [List.filter_cons, ht, List.filterMap_cons, specTextOfPart, ih]

/-- Rendering a turn ignores its non-text content parts. -/
theorem specTurnString_dropNonText (message : PromptMessage) :
    specTurnString (dropNonTextParts message) = specTurnString message := by
  cases message <;> simp [dropNonTextParts, specTurnString, specTurnText_filter_text]

/-- The flattened prompt ignores non-text content parts. -/
theorem filterMap_specTurnString_dropNonText (prompt : List PromptMessage) :
    (prompt.map dropNonTextParts).filterMap specTurnString =
      prompt.filterMap specTurnString := by
  induction prompt with
  | nil => simp
  | cons message rest ih =>
      simp [List.filterMap_cons, specTurnString_dropNonText, ih]

/-- The flattened prompt is unchanged by deleting the system turns
outright. -/
theorem filterMap_specTurnString_filter_system (prompt : List PromptMessage) :
    (prompt.filter (fun m => !isSystemMessage m)).filterMap specTurnString =
      prompt.filterMap specTurnString := by
  induction prompt with
  | nil => simp
  | cons message rest ih =>
      cases message with
      | system s => exact ih
      | user content =>
          show List.filterMap specTurnString
              (PromptMessage.user content ::
                List.filter (fun m => !isSystemMessage m) rest) = _
          simp only [List.filterMap_cons]
          rw [ih]
      | assistant content =>
          show List.filterMap specTurnString
              (PromptMessage.assistant content ::
                List.filter (fun m => !isSystemMessage m) rest) = _
          simp only [List.filterMap_cons]
          rw [ih]

/-- System extraction skips any block of non-system messages. -/
theorem extractSystemPrompt_append_of_no_system (pre : List PromptMessage) :
    (∀ m ∈ pre, isSystemMessage m = false) →
      ∀ tail, extractSystemPrompt (pre ++ tail) = extractSystemPrompt tail := by
  induction pre with
  | nil => intro _ tail; rfl
  | cons message rest ih =>
      intro h tail
      have hm := h message (List.mem_cons_self message rest)
      have hrest : ∀ m ∈ rest, isSystemMessage m = false :=
        fun m hmem => h m (List.mem_cons_of_mem message hmem)
      cases message with
      | system s => simp [isSystemMessage] at hm
      | user content =>
          show extractSystemPrompt (rest ++ tail) = _
          exact ih hrest tail
      | assistant content =>
          show extractSystemPrompt (rest ++ tail) = _
          exact ih hrest tail

/-! Claim theorems. -/

/-- C1: for every Agent Event sequence consumed to exhaustion by the
non-streaming aggregator, the returned content is the in-order
concatenation, over the assistant-turn events in arrival order, of
their converted blocks (text blocks become identical text items,
tool-invocation blocks become tool-call items with id, name and raw
input, other blocks are dropped); the captured terminal result is the
last result event seen; and with no result event the returned usage
record has all counts zero (the optional cached-input count being
absent). -/
theorem c1_nonstreaming_aggregation (messages : List SDKMessage) :
    (collectAssistantMessages messages).content = specContent messages ∧
    (collectAssistantMessages messages).result = specLastResult messages ∧
    (specLastResult messages = none →
      (collectAssistantMessages messages).usage = zeroLMUsage) := by
  refine ⟨?_, ?_, ?_⟩ <;> rw [collectAssistantMessages_eq]
  · intro h
    simp [h]

/-- C1 witness: a sequence with one assistant turn and no result
event has no terminal result and gets the zero usage record. -/
theorem c1_witness :
    specLastResult [SDKMessage.assistant [ContentBlock.text "Hi"] none] = none ∧
    (collectAssistantMessages
        [SDKMessage.assistant [ContentBlock.text "Hi"] none]).usage = zeroLMUsage :=
  ⟨rfl,
    (c1_nonstreaming_aggregation
        [SDKMessage.assistant [ContentBlock.text "Hi"] none]).2.2 rfl⟩

/-- C2: the streaming adapter emits, in the order blocks and events
were received, exactly one text-delta per text block carrying the raw
text (shown by the identifier-erased equality with the spec stream),
one tool-call per tool-invocation block with JSON-string input, and
the generated delta identifiers count up monotonically from text-0;
for two assistant turns with text blocks Hello and World followed by
one result event, the stream is exactly text-delta(Hello),
text-delta(World), finish, in that order and nothing else. -/
theorem c2_streaming_emission (messages : List SDKMessage) :
    (createStreamFromAgentSDK messages).map eraseDeltaId = specStreamErased messages ∧
    deltaIds (createStreamFromAgentSDK messages) =
      (List.range' 0 (textBlockCount messages)).map
        (fun i => "text-" ++ toString i) ∧
    ∀ r : ResultEvent,
      createStreamFromAgentSDK
          [SDKMessage.assistant [ContentBlock.text "Hello"] (some "end_turn"),
           SDKMessage.assistant [ContentBlock.text "World"] (some "end_turn"),
           SDKMessage.result r] =
        [StreamPart.textDelta "text-0" "Hello",
         StreamPart.textDelta "text-1" "World",
         StreamPart.finish (streamFinishReason r) (convertResultToUsage r)] := by
  refine ⟨?_, ?_, ?_⟩
  · rw [createStreamFromAgentSDK_eq, streamParts_map_erase]
  · rw [createStreamFromAgentSDK_eq, deltaIds_streamParts]
  · intro r
    rfl

/-- C3: the stop-reason mapping sends end_turn to stop, max_tokens to
length, tool_use to tool-calls, stop_sequence to stop, every other or
absent stop-reason to unknown; and the aggregator's finish reason is
this mapping applied to the stop reason of the final assistant-turn
event. -/
theorem c3_stop_reason_mapping :
    convertStopReason (some "end_turn") = FinishReason.stop ∧
    convertStopReason (some "max_tokens") = FinishReason.length ∧
    convertStopReason (some "tool_use") = FinishReason.toolCalls ∧
    convertStopReason (some "stop_sequence") = FinishReason.stop ∧
    (∀ s : String, s ≠ "end_turn" → s ≠ "max_tokens" → s ≠ "tool_use" →
      s ≠ "stop_sequence" → convertStopReason (some s) = FinishReason.unknown) ∧
    convertStopReason none = FinishReason.unknown ∧
    ∀ messages : List SDKMessage,
      (collectAssistantMessages messages).finishReason =
        convertStopReason (specLastStopReason messages) := by
  refine ⟨rfl, rfl, rfl, rfl, ?_, rfl, ?_⟩
  · intro s h1 h2 h3 h4
    simp [convertStopReason, h1, h2, h3, h4]
  · intro messages
    rw [collectAssistantMessages_eq]

/-- C3 witness: the unmapped string banana maps to unknown. -/
theorem c3_witness :
    ("banana" : String) ≠ "end_turn" ∧
    convertStopReason (some "banana") = FinishReason.unknown :=
  ⟨by decide,
    c3_stop_reason_mapping.2.2.2.2.1 "banana" (by decide) (by decide) (by decide)
      (by decide)⟩

/-- C4: the streaming finish reason is stop for a success subtype,
error for an error-flagged result whose subtype is not success, and
stop otherwise; it takes only the values stop and error, the
stop-reason mapping table can never produce the value error, and
every finish event of any stream carries stop or error — the
streaming path never consults the mapping table. -/
theorem c4_stream_finish_reason (r : ResultEvent) :
    (r.subtype = "success" → streamFinishReason r = FinishReason.stop) ∧
    (r.subtype ≠ "success" → r.is_error = true →
      streamFinishReason r = FinishReason.error) ∧
    (r.subtype ≠ "success" → r.is_error = false →
      streamFinishReason r = FinishReason.stop) ∧
    (streamFinishReason r = FinishReason.stop ∨
      streamFinishReason r = FinishReason.error) ∧
    (∀ s : Option String, convertStopReason s ≠ FinishReason.error) ∧
    (∀ (messages : List SDKMessage) (fr : FinishReason) (u : LMUsage),
      StreamPart.finish fr u ∈ createStreamFromAgentSDK messages →
        fr = FinishReason.stop ∨ fr = FinishReason.error) := by
  refine ⟨?_, ?_, ?_, ?_, ?_, ?_⟩
  · intro h
    simp [streamFinishReason, h]
  · intro h he
    simp [streamFinishReason, h, he]
  · intro h he
    simp [streamFinishReason, h, he]
  · unfold streamFinishReason
    split_ifs <;> simp
  · intro s
    cases s with
    | none => simp [convertStopReason]
    | some str =>
        simp only [convertStopReason]
        split_ifs <;> simp
  · intro messages fr u hmem
    rw [createStreamFromAgentSDK_eq] at hmem
    obtain ⟨r2, hr2⟩ := finish_mem_streamParts messages 0 fr u hmem
    rw [hr2]
    unfold streamFinishReason
    split_ifs <;> simp

/-- C4 witness: an error-flagged result with a non-success subtype
gets finish reason error. -/
theorem c4_witness :
    ("failure" : String) ≠ "success" ∧
    streamFinishReason ⟨none, "failure", true⟩ = FinishReason.error :=
  ⟨by decide,
    (c4_stream_finish_reason ⟨none, "failure", true⟩).2.1 (by decide) rfl⟩

/-- C5 counterexample: the stream for a result event followed by a
further assistant turn emits a text delta after the finish event, so
the claim that nothing is ever emitted after a finish event is false
on the code. -/
theorem c5_counterexample :
    noOutputAfterFinishB
        (createStreamFromAgentSDK
          [SDKMessage.result ⟨none, "success", false⟩,
           SDKMessage.assistant [ContentBlock.text "X"] none]) = false := rfl

/-- C5 as amended: the stream closes when the input event sequence is
exhausted, not upon the finish event; when the result event is the
last event of the sequence the finish event is the final output and
nothing follows it, but events arriving after a result event are
still processed and their outputs follow the finish event. -/
theorem c5_stream_close_on_exhaustion (messages : List SDKMessage) (r : ResultEvent) :
    createStreamFromAgentSDK (messages ++ [SDKMessage.result r]) =
      createStreamFromAgentSDK messages ++
        [StreamPart.finish (streamFinishReason r) (convertResultToUsage r)] ∧
    createStreamFromAgentSDK (SDKMessage.result r :: messages) =
      StreamPart.finish (streamFinishReason r) (convertResultToUsage r) ::
        createStreamFromAgentSDK messages := by
  constructor
  · rw [createStreamFromAgentSDK_eq, createStreamFromAgentSDK_eq, streamParts_append]
    simp [streamParts]
  · rw [createStreamFromAgentSDK_eq, createStreamFromAgentSDK_eq]
    rfl

/-- C6: the computed usage satisfies the additivity invariant
total = input + output + cache-creation + cache-read with missing
counts read as zero, the cached-input count is the cache-read count
reported independently, a result with no usage sub-structure yields
the zero usage record, and the 10/5/2/3 example totals exactly 20
with cached-input 3. -/
theorem c6_usage_additivity (r : ResultEvent) :
    (convertResultToUsage r).inputTokens =
      ((r.usage.map SDKUsage.input_tokens).join).getD 0 ∧
    (convertResultToUsage r).outputTokens =
      ((r.usage.map SDKUsage.output_tokens).join).getD 0 ∧
    (convertResultToUsage r).totalTokens =
      ((r.usage.map SDKUsage.input_tokens).join).getD 0 +
      ((r.usage.map SDKUsage.output_tokens).join).getD 0 +
      ((r.usage.map SDKUsage.cache_creation_input_tokens).join).getD 0 +
      ((r.usage.map SDKUsage.cache_read_input_tokens).join).getD 0 ∧
    (convertResultToUsage r).cachedInputTokens =
      (r.usage.map SDKUsage.cache_read_input_tokens).join ∧
    (r.usage = none → convertResultToUsage r = zeroLMUsage) ∧
    convertResultToUsage ⟨some ⟨some 10, some 5, some 2, some 3⟩, "success", false⟩ =
      { inputTokens := 10, outputTokens := 5, totalTokens := 20,
        cachedInputTokens := some 3 } := by
  refine ⟨rfl, rfl, rfl, rfl, ?_, rfl⟩
  intro h
  simp [convertResultToUsage, zeroLMUsage, h]

/-- C6 witness: a result event with no usage sub-structure yields the
zero usage record. -/
theorem c6_witness :
    (⟨none, "success", false⟩ : ResultEvent).usage = none ∧
    convertResultToUsage ⟨none, "success", false⟩ = zeroLMUsage :=
  ⟨rfl, (c6_usage_additivity ⟨none, "success", false⟩).2.2.2.2.1 rfl⟩

/-- C7: the flattened prompt equals the spec rendering (user and
assistant turns in original order with their role tags, per-turn text
parts joined by one space, turns joined by a blank line), it is
unchanged when the system turns are deleted outright (their content
never contributes) and when non-text parts are removed (they are
ignored), and the empty turn list yields the empty string. -/
theorem c7_prompt_flattening (prompt : List PromptMessage) :
    convertPromptToAgentSDKFormat prompt = specPromptText prompt ∧
    convertPromptToAgentSDKFormat (prompt.filter (fun m => !isSystemMessage m)) =
      convertPromptToAgentSDKFormat prompt ∧
    convertPromptToAgentSDKFormat (prompt.map dropNonTextParts) =
      convertPromptToAgentSDKFormat prompt ∧
    convertPromptToAgentSDKFormat ([] : List PromptMessage) = "" := by
  refine ⟨convertPromptToAgentSDKFormat_eq prompt, ?_, ?_, rfl⟩
  · rw [convertPromptToAgentSDKFormat_eq, convertPromptToAgentSDKFormat_eq]
    unfold specPromptText
    rw [filterMap_specTurnString_filter_system]
  · rw [convertPromptToAgentSDKFormat_eq, convertPromptToAgentSDKFormat_eq]
    unfold specPromptText
    rw [filterMap_specTurnString_dropNonText]

/-- C8: system extraction returns the first system turn's content in
turn order (a system head wins, non-system heads are skipped, any
prefix free of system turns is skipped), returns absent for an empty
list, and on [system A, user x, system B] returns exactly A. -/
theorem c8_system_extraction (s : String) (content : List ContentPart)
    (rest : List PromptMessage) :
    extractSystemPrompt (PromptMessage.system s :: rest) = some s ∧
    extractSystemPrompt (PromptMessage.user content :: rest) =
      extractSystemPrompt rest ∧
    extractSystemPrompt (PromptMessage.assistant content :: rest) =
      extractSystemPrompt rest ∧
    extractSystemPrompt ([] : List PromptMessage) = none ∧
    (∀ pre : List PromptMessage, (∀ m ∈ pre, isSystemMessage m = false) →
      ∀ post, extractSystemPrompt (pre ++ PromptMessage.system s :: post) = some s) ∧
    extractSystemPrompt
        [PromptMessage.system "A",
         PromptMessage.user [ContentPart.mk "text" (some "x")],
         PromptMessage.system "B"] = some "A" := by
  refine ⟨rfl, rfl, rfl, rfl, ?_, rfl⟩
  intro pre h post
  rw [extractSystemPrompt_append_of_no_system pre h]
  rfl

/-- C8 witness: one non-system turn before the system turn is
skipped and the system turn's content is returned. -/
theorem c8_witness :
    (∀ m ∈ [PromptMessage.user [ContentPart.mk "text" (some "x")]],
      isSystemMessage m = false) ∧
    extractSystemPrompt
        ([PromptMessage.user [ContentPart.mk "text" (some "x")]] ++
          PromptMessage.system "A" :: []) = some "A" :=
  ⟨by decide,
    (c8_system_extraction "A" [] []).2.2.2.2.1
      [PromptMessage.user [ContentPart.mk "text" (some "x")]] (by decide) []⟩

/-- C9: the error classifier maps status 401 to an authentication
error, 404 to model-not-found, 429 to rate-limit, 400 to
invalid-request, any status of at least 500 to a server error
carrying url and request-body context, and every other status — all
remaining statuses below 500, such as 403 — as well as an absent
status to a generic provider error; and every produced error,
including the wrapper for a non-Error input, retains the original
failure as its cause. -/
theorem c9_error_classification (m : String) (url : Option String)
    (rb : Option JsonValue) :
    convertToAISDKError (CaughtError.error m) (some 401) url rb =
      AISDKError.authentication m (CaughtError.error m) ∧
    convertToAISDKError (CaughtError.error m) (some 404) url rb =
      AISDKError.modelNotFound ("Model '" ++ m ++ "' not found or not supported.")
        (CaughtError.error m) ∧
    convertToAISDKError (CaughtError.error m) (some 429) url rb =
      AISDKError.rateLimit m none (CaughtError.error m) ∧
    convertToAISDKError (CaughtError.error m) (some 400) url rb =
      AISDKError.invalidRequest m (CaughtError.error m) ∧
    (∀ code : Nat, 500 ≤ code →
      convertToAISDKError (CaughtError.error m) (some code) url rb =
        AISDKError.apiCall ("Server error: " ++ m) (url.getD "unknown")
          (rb.getD (JsonValue.obj [])) code (CaughtError.error m)) ∧
    convertToAISDKError (CaughtError.error m) (some 403) url rb =
      AISDKError.provider m (CaughtError.error m) ∧
    (∀ code : Nat, code < 500 → code ≠ 400 → code ≠ 401 → code ≠ 404 →
      code ≠ 429 →
      convertToAISDKError (CaughtError.error m) (some code) url rb =
        AISDKError.provider m (CaughtError.error m)) ∧
    convertToAISDKError (CaughtError.error m) none url rb =
      AISDKError.provider m (CaughtError.error m) ∧
    (∀ (e : CaughtError) (st : Option Nat),
      causeOf (convertToAISDKError e st url rb) = e) := by
  refine ⟨rfl, rfl, rfl, rfl, ?_, rfl, ?_, rfl, ?_⟩
  · intro code h
    have h401 : ¬ ((some code : Option Nat) = some 401) := by simp; omega
    have h404 : ¬ ((some code : Option Nat) = some 404) := by simp; omega
    have h429 : ¬ ((some code : Option Nat) = some 429) := by simp; omega
    have h400 : ¬ ((some code : Option Nat) = some 400) := by simp; omega
    simp only [convertToAISDKError, if_neg h401, if_neg h404, if_neg h429,
      if_neg h400]
    rw [if_pos ⟨by omega, h⟩]
  · intro code hlt e400 e401 e404 e429
    have h401 : ¬ ((some code : Option Nat) = some 401) := by simpa using e401
    have h404 : ¬ ((some code : Option Nat) = some 404) := by simpa using e404
    have h429 : ¬ ((some code : Option Nat) = some 429) := by simpa using e429
    have h400 : ¬ ((some code : Option Nat) = some 400) := by simpa using e400
    simp only [convertToAISDKError, if_neg h401, if_neg h404, if_neg h429,
      if_neg h400]
    rw [if_neg]
    intro hc
    omega
  · intro e st
    cases e with
    | nonError v => rfl
    | error msg =>
        cases st with
        | none => rfl
        | some code =>
            simp only [convertToAISDKError]
            split_ifs <;> simp [causeOf]

/-- C9 witness: status 500 yields the server error with url and
request-body context, and the unmapped status 402 yields the generic
provider error. -/
theorem c9_witness :
    (500 : Nat) ≤ 500 ∧
    convertToAISDKError (CaughtError.error "boom") (some 500) none none =
      AISDKError.apiCall ("Server error: " ++ "boom") "unknown" (JsonValue.obj [])
        500 (CaughtError.error "boom") ∧
    (402 : Nat) < 500 ∧
    convertToAISDKError (CaughtError.error "boom") (some 402) none none =
      AISDKError.provider "boom" (CaughtError.error "boom") :=
  ⟨by decide,
    (c9_error_classification "boom" none none).2.2.2.2.1 500 (by decide),
    by decide,
    (c9_error_classification "boom" none none).2.2.2.2.2.2.1 402 (by decide)
      (by decide) (by decide) (by decide) (by decide)⟩

/-- C10: the fence-stripping transform turns the fenced JSON example
into the bare JSON object and leaves a plain value unchanged; the
non-streaming path applies it to every text item exactly when strict
JSON output was requested and otherwise returns the aggregate
unchanged; and the streaming path always emits the raw block texts,
fenced or not, untouched. -/
theorem c10_fence_stripping :
    stripMarkdownCodeBlocks "```json\n\x7b\"a\":1\x7d\n```" = "\x7b\"a\":1\x7d" ∧
    stripMarkdownCodeBlocks "hello" = "hello" ∧
    (∀ messages : List SDKMessage,
      doGenerateContent true messages =
        postProcessJsonContent ((collectAssistantMessages messages).content)) ∧
    (∀ messages : List SDKMessage,
      doGenerateContent false messages = (collectAssistantMessages messages).content) ∧
    (∀ messages : List SDKMessage,
      deltaTexts (createStreamFromAgentSDK messages) = rawTextBlocks messages) ∧
    createStreamFromAgentSDK
        [SDKMessage.assistant [ContentBlock.text "```json\n\x7b\"a\":1\x7d\n```"] none] =
      [StreamPart.textDelta "text-0" "```json\n\x7b\"a\":1\x7d\n```"] := by
  refine ⟨by decide, by decide, ?_, ?_, ?_, rfl⟩
  · intro messages
    rfl
  · intro messages
    rfl
  · intro messages
    rw [createStreamFromAgentSDK_eq, deltaTexts_streamParts]

end ClaudeAgentProvider
